import Mathlib

/-!
Verification of the getgen prompt-response reconciliation core.

The embedding models the JavaScript runtime values flowing through the
reconciliation loop (`src/core/Agent.ts`), the tool registry
(`src/core/tools/ToolManager.ts`) and the client-side tool dispatch and
parameter coercion (`src/core/AIClient.ts`).  Machine-level caveats:
JavaScript numbers are modelled as integers (no claim touches fractional
or NaN arithmetic), and JSON string escapes are restricted to the
single-character escape set (no claim uses unicode escapes).
-/

/-- Model of a JavaScript runtime value.  The first constructor is
JavaScript `undefined`, distinct from `null`; objects are ordered field
lists. -/
inductive JSValue where
  | undefined : JSValue
  | null : JSValue
  | bool : Bool → JSValue
  | num : Int → JSValue
  | str : String → JSValue
  | arr : List JSValue → JSValue
  | obj : List (String × JSValue) → JSValue

/-- Property access `v[key]` on a JavaScript value: only objects carry
fields, every other receiver yields `undefined`.  For duplicate keys the
last assignment wins, as in JavaScript. -/
def jsGet (v : JSValue) (key : String) : JSValue :=
  match v with
  | .obj fields =>
    match fields.reverse.find? (fun f => f.1 == key) with
    | some f => f.2
    | none => .undefined
  | _ => .undefined

/-- JavaScript truthiness of a value (integer numbers only, so the NaN
case does not arise). -/
def truthy : JSValue → Bool
  | .undefined => false
  | .null => false
  | .bool b => b
  | .num n => n != 0
  | .str s => !(s == "")
  | .arr _ => true
  | .obj _ => true

/-- Skip JSON whitespace, as accepted by `JSON.parse`. -/
def skipWs : List Char → List Char
  | [] => []
  | c :: cs => if c = ' ' ∨ c = '\t' ∨ c = '\n' ∨ c = '\r' then skipWs cs else c :: cs

/-- Numeric value of a digit list, most significant first. -/
def digitsVal (ds : List Char) : Int :=
  ds.foldl (fun a c => a * 10 + (Int.ofNat (c.toNat - '0'.toNat))) 0

/-- Translate a JSON single-character escape. -/
def escChar : Char → Option Char
  | '\x22' => some '\x22'
  | '\\' => some '\\'
  | '/' => some '/'
  | 'b' => some '\x08'
  | 'f' => some '\x0c'
  | 'n' => some '\n'
  | 'r' => some '\r'
  | 't' => some '\t'
  | _ => none

/-- Read the body of a JSON string literal (after the opening quote),
returning the decoded characters and the remaining input. -/
def parseStrChars : List Char → Option (List Char × List Char)
  | [] => none
  | c :: cs =>
    if c = '\x22' then some ([], cs)
    else if c = '\\' then
      match cs with
      | [] => none
      | e :: cs2 =>
        match escChar e with
        | none => none
        | some ec =>
          match parseStrChars cs2 with
          | none => none
          | some (s, rest) => some (ec :: s, rest)
    else
      match parseStrChars cs with
      | none => none
      | some (s, rest) => some (c :: s, rest)

/-- Parsing mode of the JSON reader: a single value, the element list of
an array, or the member list of an object.  `first` is true while the
closing bracket may legally appear immediately (empty collection). -/
inductive JsonMode where
  | value : JsonMode
  | arrBody : Bool → JsonMode
  | objBody : Bool → JsonMode

/-- Fuel-indexed JSON reader modelling `JSON.parse`.  In `arrBody` and
`objBody` modes the returned value is the collected `.arr` or `.obj`.
Number literals are restricted to optionally signed integers. -/
def parseStep : Nat → JsonMode → List Char → Option (JSValue × List Char)
  | 0, _, _ => none
  | Nat.succ fuel, .value, cs =>
    match skipWs cs with
    | [] => none
    | c :: rest =>
      if c = '\x7b' then
        parseStep fuel (.objBody true) rest
      else if c = '[' then
        parseStep fuel (.arrBody true) rest
      else if c = '\x22' then
        match parseStrChars rest with
        | some (s, rest2) => some (.str (String.mk s), rest2)
        | none => none
      else if c = 't' then
        match rest with
        | 'r' :: 'u' :: 'e' :: rest2 => some (.bool true, rest2)
        | _ => none
      else if c = 'f' then
        match rest with
        | 'a' :: 'l' :: 's' :: 'e' :: rest2 => some (.bool false, rest2)
        | _ => none
      else if c = 'n' then
        match rest with
        | 'u' :: 'l' :: 'l' :: rest2 => some (.null, rest2)
        | _ => none
      else if c = '-' then
        match rest.span Char.isDigit with
        | (ds, rest2) => if ds.isEmpty then none else some (.num (-(digitsVal ds)), rest2)
      else if c.isDigit then
        match (c :: rest).span Char.isDigit with
        | (ds, rest2) => some (.num (digitsVal ds), rest2)
      else none
  | Nat.succ fuel, .arrBody first, cs =>
    match skipWs cs with
    | ']' :: rest =>
      if first then some (.arr [], rest) else
      match parseStep fuel .value (']' :: rest) with
      | _ => none
    | cs2 =>
      if first ∧ cs2.isEmpty then none else
      match parseStep fuel .value cs2 with
      | none => none
      | some (v, rest) =>
        match skipWs rest with
        | ']' :: rest2 => some (.arr [v], rest2)
        | ',' :: rest2 =>
          match parseStep fuel (.arrBody false) rest2 with
          | some (.arr vs, rest3) => some (.arr (v :: vs), rest3)
          | _ => none
        | _ => none
  | Nat.succ fuel, .objBody first, cs =>
    match skipWs cs with
    | '\x7d' :: rest =>
      if first then some (.obj [], rest) else
      match parseStep fuel .value ('\x7d' :: rest) with
      | _ => none
    | '\x22' :: rest =>
      match parseStrChars rest with
      | none => none
      | some (k, rest2) =>
        match skipWs rest2 with
        | ':' :: rest3 =>
          match parseStep fuel .value rest3 with
          | none => none
          | some (v, rest4) =>
            match skipWs rest4 with
            | '\x7d' :: rest5 => some (.obj [(String.mk k, v)], rest5)
            | ',' :: rest5 =>
              match parseStep fuel (.objBody false) rest5 with
              | some (.obj fs, rest6) => some (.obj ((String.mk k, v) :: fs), rest6)
              | _ => none
            | _ => none
        | _ => none
    | _ => none

/-- Model of `JSON.parse`: parse one value and require only whitespace to
remain.  Returns `none` where `JSON.parse` would throw. -/
def jsonParse (s : String) : Option JSValue :=
  match parseStep (2 * s.length + 4) .value s.data with
  | some (v, rest) => if (skipWs rest).isEmpty then some v else none
  | none => none

/-- JavaScript string whitespace (the characters relevant to `trim`). -/
def isJsWs (c : Char) : Bool :=
  c = ' ' ∨ c = '\t' ∨ c = '\n' ∨ c = '\r' ∨ c = '\x0b' ∨ c = '\x0c'

/-- JavaScript `String.prototype.trim`. -/
def jsTrim (s : String) : String :=
  String.mk (((s.data.dropWhile isJsWs).reverse.dropWhile isJsWs).reverse)

/-- Whether a string opens with the given character. -/
def headIs (s : String) (c : Char) : Bool := s.data.head? == some c

/-- Whether a string closes with the given character. -/
def lastIs (s : String) (c : Char) : Bool := s.data.getLast? == some c

/-- Model of JavaScript `Number(string)` restricted to integral input:
leading and trailing whitespace is ignored, the empty string is 0, an
optionally signed digit string is its value, and everything else
(including fractional or hexadecimal forms, which no claim exercises)
is NaN, encoded as `none`. -/
def jsNumber? (s : String) : Option Int :=
  match (jsTrim s).data with
  | [] => some 0
  | '-' :: ds => if !ds.isEmpty ∧ ds.all Char.isDigit then some (-(digitsVal ds)) else none
  | '+' :: ds => if !ds.isEmpty ∧ ds.all Char.isDigit then some (digitsVal ds) else none
  | ds => if ds.all Char.isDigit then some (digitsVal ds) else none

/-- Model of `AIClient.parseValue` (src/core/AIClient.ts lines 175-201): trim,
strip one layer of matching quotes, attempt `JSON.parse` on values
opening with a bracket or brace (falling back to the raw string),
attempt numeric coercion via `Number`, otherwise keep the string. -/
def parseValue (value : String) : JSValue :=
  let v0 := jsTrim value
  let v := if (headIs v0 '\x22' ∧ lastIs v0 '\x22')
              ∨ (headIs v0 '\x27' ∧ lastIs v0 '\x27')
           then String.mk ((v0.data.drop 1).dropLast) else v0
  if headIs v '[' ∨ headIs v '\x7b' then
    match jsonParse v with
    | some j => j
    | none => .str v
  else
    match jsNumber? v with
    | some n => .num n
    | none => .str v

/-- Index of the last closing brace of a character list, if any. -/
def lastCloseIdx (cs : List Char) : Option Nat :=
  match cs.reverse.findIdx? (fun c => c = '\x7d') with
  | some k => some (cs.length - 1 - k)
  | none => none

/-- The JSON-candidate heuristic `response.text.match` with the greedy
pattern brace-anything-brace (src/core/Agent.ts line 144): the match, when
one exists, spans from the first opening brace to the last closing brace
of the text. -/
def jsonMatch (s : String) : Option String :=
  let cs := s.data
  match cs.findIdx? (fun c => c = '\x7b'), lastCloseIdx cs with
  | some i, some j =>
    if i < j then some (String.mk ((cs.drop i).take (j + 1 - i))) else none
  | _, _ => none

/-- A declared tool parameter (src/types/index.ts `ToolParameter`). -/
structure ToolParameter where
  name : String
  type : String
  description : String
  required : Bool

/-- A registered tool (src/types/index.ts `Tool`).  The execute
capability is arbitrary user code: it may return any value or throw,
modelled as `Except` with the thrown message. -/
structure Tool where
  name : String
  description : String
  parameters : List ToolParameter
  execute : List (String × JSValue) → Except String JSValue

/-- Model of `ToolManager.addTool`: reject a duplicate name by throwing, else
insert.  The registry is the `Map` contents in insertion order; a thrown
error leaves the registry unchanged (the check precedes the insert). -/
def ToolManager.addTool (tools : List Tool) (t : Tool) : Except String (List Tool) :=
  if tools.any (fun u => u.name == t.name) then
    .error ("Tool with name \x27" ++ t.name ++ "\x27 already exists")
  else
    .ok (tools ++ [t])

/-- Model of `ToolManager.removeTool`: throw when the name is absent, else
delete the entry. -/
def ToolManager.removeTool (tools : List Tool) (name : String) : Except String (List Tool) :=
  if tools.any (fun u => u.name == name) then
    .ok (tools.filter (fun u => !(u.name == name)))
  else
    .error ("Tool \x27" ++ name ++ "\x27 not found")

/-- Model of `ToolManager.listTools`: the registered tools in insertion order. -/
def ToolManager.listTools (tools : List Tool) : List Tool := tools

/-- Model of `ToolManager.executeTool` (src/core/tools/ToolManager.ts lines
28-59): look the tool up (registries built by `addTool` have unique
names, so first match is the `Map` lookup), return a failed result on
the first missing required parameter (the validation loop returns
inside the `for`), otherwise invoke the tool and wrap the outcome as
`success`/`data`; a thrown tool error is caught as a failed result. -/
def ToolManager.executeTool (tools : List Tool) (name : String)
    (params : List (String × JSValue)) : JSValue :=
  match tools.find? (fun u => u.name == name) with
  | none =>
    .obj [("success", .bool false), ("error", .str ("Tool \x27" ++ name ++ "\x27 not found"))]
  | some tool =>
    match tool.parameters.find? (fun p => p.required && !(params.any (fun q => q.1 == p.name))) with
    | some p =>
      .obj [("success", .bool false),
            ("error", .str ("Missing required parameter \x27" ++ p.name
              ++ "\x27 for tool \x27" ++ name ++ "\x27"))]
    | none =>
      match tool.execute params with
      | .ok v => .obj [("success", .bool true), ("data", v)]
      | .error e => .obj [("success", .bool false), ("error", .str e)]

/-- The required parameter names absent from a parameter mapping, in
declaration order (the `missingParams` computation of
`AIClient.executeTool`). -/
def missingNames (t : Tool) (params : List (String × JSValue)) : List String :=
  (t.parameters.filter (fun p => p.required && !(params.any (fun q => q.1 == p.name)))).map
    (fun p => p.name)

/-- Model of `AIClient.executeTool` (src/core/AIClient.ts lines 312-343): look
the tool up in `toolManager.listTools()`, fail listing every missing
required parameter name, otherwise `return await tool.execute(...)` -
the tool outcome is returned as-is, with no success/data wrapper; a
thrown tool error is caught as a failed result. -/
def AIClient.executeTool (tools : List Tool) (name : String)
    (params : List (String × JSValue)) : JSValue :=
  match tools.find? (fun u => u.name == name) with
  | none =>
    .obj [("success", .bool false), ("error", .str ("Tool \x27" ++ name ++ "\x27 not found"))]
  | some tool =>
    let missingParams := missingNames tool params
    if missingParams.isEmpty then
      match tool.execute params with
      | .ok v => v
      | .error e => .obj [("success", .bool false), ("error", .str e)]
    else
      .obj [("success", .bool false),
            ("error", .str ("Missing required parameters: "
              ++ String.intercalate ", " missingParams))]

/-- One field-level validation error of the schema engine (the shape of
a zod issue: a path and a message). -/
structure ZodIssue where
  path : List String
  message : String

/-- The schema-validation collaborator: `safeParse` either succeeds with
the validated value or reports a list of field-level issues. -/
abbrev Schema := JSValue → Except (List ZodIssue) JSValue

/-- Format one issue for the terminal `validationError` (src/core/Agent.ts
lines 200-203): dotted path, then ` : `, omitted when the joined path is
the empty string. -/
def formatIssue (i : ZodIssue) : String :=
  let path := String.intercalate "." i.path
  (if path == "" then "" else path ++ " : ") ++ i.message

/-- Join the formatted issues with newlines. -/
def formatIssues (issues : List ZodIssue) : String :=
  String.intercalate "\n" (issues.map formatIssue)

/-- A tool call extracted from the model text (src/types/index.ts
`ToolCall`, before execution). -/
structure ToolCall where
  name : String
  parameters : List (String × JSValue)

/-- A generation response as the Agent consumes it from
`AIClient.generate`: raw text plus the tool calls the client extracted
from it. -/
structure AIResponse where
  text : String
  toolCalls : List ToolCall

/-- The generation capability: the external model, indexed by how many
generation calls were made before, receiving the prompt; it may throw
(transport failure). -/
abbrev GenOracle := Nat → String → Except String AIResponse

/-- An executed tool call as accumulated by the loop (src/core/Agent.ts
`ToolCallResult`, after `call.result` is assigned). -/
structure ToolCallResult where
  name : String
  tool : String
  parameters : List (String × JSValue)
  result : JSValue

/-- The value returned by `execute` (src/core/Agent.ts `ExecuteResult`);
the loop only ever stores strings in `validationError`. -/
structure ExecuteResult where
  response : String
  parsedResponse : Option JSValue
  validationError : Option String
  toolCalls : List ToolCallResult

/-- The tool-dispatch pass of one loop iteration (src/core/Agent.ts
lines 122-131): EVERY extracted call is executed via
`client.executeTool`, in extraction order, and
`call.result = result.success ? result.data : result.error`. -/
def runToolCalls (clientTools : List Tool) (calls : List ToolCall) : List ToolCallResult :=
  calls.map (fun call =>
    let result := AIClient.executeTool clientTools call.name call.parameters
    { name := call.name, tool := call.name, parameters := call.parameters,
      result := if truthy (jsGet result "success") then jsGet result "data"
                else jsGet result "error" })

/-- The corrective message stored when no JSON candidate remains after
the budget (src/core/Agent.ts line 154). -/
def noJsonError : String :=
  "Response must be a valid JSON object that starts with \x7b and ends with \x7d"

/-- The message stored when the candidate fails to parse (line 170). -/
def invalidJsonError : String := "The provided JSON is not valid"

/-- Model of `Agent.executeWithRetry` (src/core/Agent.ts lines 108-234).  The
pair's second component is the trace of prompts sent to the generation
capability, one entry per generation call.  Note that every recursive
call passes `prompt` unchanged: the `retryMessage` strings the source
builds on lines 148, 164, 192, 209 and 223 are dead local variables and
never reach the recursion.  All terminal branches return an
`ExecuteResult` (the loop resolves, it never throws). -/
def executeWithRetry (gen : GenOracle) (clientTools : List Tool) (prompt : String)
    (schema : Option Schema) (maxRetries : Nat) (attempt : Nat)
    (toolResults : List ToolCallResult) (callIdx : Nat) :
    ExecuteResult × List String :=
  match gen callIdx prompt with
  | .error e =>
    if h : attempt < maxRetries then
      let rest := executeWithRetry gen clientTools prompt schema maxRetries
        (attempt + 1) toolResults (callIdx + 1)
      (rest.1, prompt :: rest.2)
    else
      ({ response := "", parsedResponse := none, validationError := some e,
         toolCalls := toolResults }, [prompt])
  | .ok response =>
    let newToolResults := runToolCalls clientTools response.toolCalls
    let toolResults2 := toolResults ++ newToolResults
    match schema with
    | none =>
      ({ response := response.text, parsedResponse := none, validationError := none,
         toolCalls := toolResults2 }, [prompt])
    | some s =>
      match jsonMatch response.text with
      | none =>
        if h : attempt < maxRetries then
          let rest := executeWithRetry gen clientTools prompt schema maxRetries
            (attempt + 1) toolResults2 (callIdx + 1)
          (rest.1, prompt :: rest.2)
        else
          ({ response := response.text, parsedResponse := none,
             validationError := some noJsonError, toolCalls := toolResults2 }, [prompt])
      | some matched =>
        match jsonParse matched with
        | none =>
          if h : attempt < maxRetries then
            let rest := executeWithRetry gen clientTools prompt schema maxRetries
              (attempt + 1) toolResults2 (callIdx + 1)
            (rest.1, prompt :: rest.2)
          else
            ({ response := response.text, parsedResponse := none,
               validationError := some invalidJsonError, toolCalls := toolResults2 }, [prompt])
        | some jsonResponse =>
          match s jsonResponse with
          | .ok data =>
            ({ response := matched, parsedResponse := some data, validationError := none,
               toolCalls := toolResults2 }, [prompt])
          | .error issues =>
            if h : attempt < maxRetries then
              let rest := executeWithRetry gen clientTools prompt schema maxRetries
                (attempt + 1) toolResults2 (callIdx + 1)
              (rest.1, prompt :: rest.2)
            else
              ({ response := matched, parsedResponse := none,
                 validationError := some (formatIssues issues), toolCalls := toolResults2 },
               [prompt])
termination_by maxRetries - attempt
decreasing_by all_goals omega

/-- The default retry budget (src/core/Agent.ts `DEFAULT_CONFIG`). -/
def DEFAULT_maxRetries : Nat := 3

/-- The constructor merge `options.maxRetries || DEFAULT_CONFIG.maxRetries`
(src/core/Agent.ts line 67): an absent option, and the falsy 0, fall back
to the default 3. -/
def Agent.mkMaxRetries (opt : Option Nat) : Nat :=
  match opt with
  | some n => if n = 0 then DEFAULT_maxRetries else n
  | none => DEFAULT_maxRetries

/-- Agent instance state: the agent-level tool array `this.tools` and
the tool registry of the owned `AIClient` (its `ToolManager` contents). -/
structure AgentState where
  tools : List Tool
  clientTools : List Tool

/-- A freshly constructed Agent: no tools anywhere. -/
def Agent.new : AgentState := { tools := [], clientTools := [] }

/-- Model of `Agent.addTools` (src/core/Agent.ts lines 71-73):
`this.tools.push(...tools)` - it appends to the agent-level array and
does not touch the client registry. -/
def Agent.addTools (a : AgentState) (ts : List Tool) : AgentState :=
  { a with tools := a.tools ++ ts }

/-- Model of `Agent.listTools` (src/core/Agent.ts lines 75-77): returns the
agent-level array. -/
def Agent.listTools (a : AgentState) : List Tool := a.tools

/-- The `allTools.forEach(tool => this.client.addTool(tool))` pass of
`Agent.execute`: register each tool in order, the first duplicate name
throwing out of the whole pass. -/
def registerAll (clientTools : List Tool) : List Tool → Except String (List Tool)
  | [] => .ok clientTools
  | t :: ts =>
    match ToolManager.addTool clientTools t with
    | .error e => .error e
    | .ok ct => registerAll ct ts

/-- Model of `Agent.execute` (src/core/Agent.ts lines 236-276): register the
agent-level and call-level tools into the client registry (a throw here
is caught and rethrown as `Execution error: ...`, before any generation
call), build the full prompt around the system prompt rendered by the
PromptBuilder collaborator (`sysPrompt`), then run the retry loop with
`attempt = 1` and an empty accumulator.  Returns the result, the
generation trace and the updated instance state. -/
def Agent.execute (a : AgentState) (gen : GenOracle) (sysPrompt : String)
    (prompt : String) (schema : Option Schema) (maxRetries : Nat)
    (callTools : List Tool) : Except String (ExecuteResult × List String × AgentState) :=
  match registerAll a.clientTools (a.tools ++ callTools) with
  | .error e => .error ("Execution error: " ++ e)
  | .ok ct =>
    let fullPrompt := sysPrompt ++ "\n\nUser request: " ++ prompt
    let out := executeWithRetry gen ct fullPrompt schema maxRetries 1 [] 0
    .ok (out.1, out.2, { a with clientTools := ct })

/-- Model of `Agent.executeWithSchema` (src/core/Agent.ts lines 80-89): delegate
to `execute` with the schema and `options.maxRetries ?? this.maxRetries`. -/
def Agent.executeWithSchema (a : AgentState) (gen : GenOracle) (sysPrompt : String)
    (prompt : String) (s : Schema) (maxRetries : Option Nat) (agentMaxRetries : Nat)
    (callTools : List Tool) : Except String (ExecuteResult × List String × AgentState) :=
  Agent.execute a gen sysPrompt prompt (some s) (maxRetries.getD agentMaxRetries) callTools

/-- Model of `Agent.executeRaw` (src/core/Agent.ts lines 92-96): delegate to
`execute` without a schema. -/
def Agent.executeRaw (a : AgentState) (gen : GenOracle) (sysPrompt : String)
    (prompt : String) (agentMaxRetries : Nat) (callTools : List Tool) :
    Except String (ExecuteResult × List String × AgentState) :=
  Agent.execute a gen sysPrompt prompt none agentMaxRetries callTools

/-- Whether `sub` occurs as a contiguous substring of `s`. -/
def isSubstring (sub s : String) : Bool :=
  (List.range (s.length + 1)).any (fun i => (s.data.drop i).take sub.length == sub.data)

/-- Claim C4: parameter-value coercion is total and deterministic and
maps "true"/"false" to booleans, numeric literals to numbers, quoted
values to the bare string, bracketed values to parsed JSON with a
raw-string fallback, and anything else to the raw string.  The code has
no boolean case at all: `Number("true")` is NaN, so both literals fall
through to the string branch.  This theorem evaluates `parseValue` at
the failing inputs (first two conjuncts) and at the inputs the claim
gets right (remaining conjuncts); totality and determinism hold by
construction, `parseValue` being a Lean function. -/
theorem parseValue_spec_divergence :
    parseValue "true" = JSValue.str "true"
    ∧ parseValue "false" = JSValue.str "false"
    ∧ parseValue "TRUE" = JSValue.str "TRUE"
    ∧ parseValue "42" = JSValue.num 42
    ∧ parseValue "\x22hello\x22" = JSValue.str "hello"
    ∧ parseValue "[1,2]" = JSValue.arr [JSValue.num 1, JSValue.num 2]
    ∧ parseValue "[1,2" = JSValue.str "[1,2"
    ∧ parseValue "plain text" = JSValue.str "plain text" :=
  ⟨rfl, rfl, rfl, rfl, rfl, rfl, rfl, rfl⟩

/-- A tool whose execute capability succeeds with the string
`Tool result` (the fixture of the repository's own executeTool tests). -/
def toolOk : Tool :=
  { name := "testTool", description := "Test tool",
    parameters := [{ name := "param", type := "string",
                     description := "Test parameter", required := true }],
    execute := fun _ => .ok (.str "Tool result") }

/-- The same tool but with an execute capability that throws
`Tool error`. -/
def toolThrow : Tool :=
  { name := "testTool", description := "Test tool",
    parameters := [{ name := "param", type := "string",
                     description := "Test parameter", required := true }],
    execute := fun _ => .error "Tool error" }

/-- Claim C8: a thrown tool exception is caught and reported as a
failed result by both executeTool implementations (conjuncts four and
five), but on success `AIClient.executeTool` returns the tool outcome
raw - `return await tool.execute(parameters)` - so the claimed
`success`/`data` wrapper is absent there (conjuncts one and two: the
result is the bare string and has no `success` property), while
`ToolManager.executeTool` does wrap (conjunct three).  The repository's
own test (AIClient.test.ts lines 377-382) expects the wrapper from
`AIClient.executeTool`. -/
theorem executeTool_wrap_divergence :
    AIClient.executeTool [toolOk] "testTool" [("param", .str "test")]
      = JSValue.str "Tool result"
    ∧ jsGet (AIClient.executeTool [toolOk] "testTool" [("param", .str "test")]) "success"
      = JSValue.undefined
    ∧ ToolManager.executeTool [toolOk] "testTool" [("param", .str "test")]
      = JSValue.obj [("success", .bool true), ("data", .str "Tool result")]
    ∧ AIClient.executeTool [toolThrow] "testTool" [("param", .str "test")]
      = JSValue.obj [("success", .bool false), ("error", .str "Tool error")]
    ∧ ToolManager.executeTool [toolThrow] "testTool" [("param", .str "test")]
      = JSValue.obj [("success", .bool false), ("error", .str "Tool error")] :=
  ⟨rfl, rfl, rfl, rfl, rfl⟩

/-- A tool requiring the two parameters `a` and `b`. -/
def toolAB : Tool :=
  { name := "calc", description := "two required parameters",
    parameters := [{ name := "a", type := "string", description := "", required := true },
                   { name := "b", type := "string", description := "", required := true }],
    execute := fun _ => .ok .null }

/-- Claim C6, counterexample: executing `toolAB` through
`ToolManager.executeTool` with an empty mapping leaves both `a` and `b`
missing, yet the error message names only the first (`a`): the message
contains no occurrence of `b`, so the error does not list all missing
required parameter names. -/
theorem toolManager_reports_first_missing_only :
    missingNames toolAB [] = ["a", "b"]
    ∧ ToolManager.executeTool [toolAB] "calc" []
      = JSValue.obj [("success", .bool false),
          ("error", .str "Missing required parameter \x27a\x27 for tool \x27calc\x27")]
    ∧ isSubstring "b" "Missing required parameter \x27a\x27 for tool \x27calc\x27" = false :=
  ⟨rfl, rfl, by decide⟩

/-- A generation response carrying six extracted tool calls and no
usable JSON body. -/
def genSix : GenOracle :=
  fun _ _ => .ok
    { text := "done",
      toolCalls := [⟨"t1", []⟩, ⟨"t2", []⟩, ⟨"t3", []⟩, ⟨"t4", []⟩, ⟨"t5", []⟩, ⟨"t6", []⟩] }

/-- Claim C5: at most `maxToolCallsPerTurn` (default 5) extracted calls
are executed per turn, the rest silently dropped.  The reconciliation
loop (src/core/Agent.ts lines 122-131) iterates over every extracted
call with no limit - `GenerateOptions.maxToolCalls` is never consulted
on this path - so a response carrying six calls yields six executed
entries.  The appends do happen in extraction order with name and
parameters preserved, as the trailing conjuncts show. -/
theorem all_extracted_tool_calls_executed :
    (executeWithRetry genSix [] "P" none 3 1 [] 0).1.toolCalls.length = 6
    ∧ ((executeWithRetry genSix [] "P" none 3 1 [] 0).1.toolCalls.map
        (fun c => c.name)) = ["t1", "t2", "t3", "t4", "t5", "t6"]
    ∧ ((executeWithRetry genSix [] "P" none 3 1 [] 0).1.toolCalls.map
        (fun c => c.tool)) = ["t1", "t2", "t3", "t4", "t5", "t6"] := by
  rw [executeWithRetry]
  exact ⟨by decide, by decide, by decide⟩

/-- A tool named `testTool` with no parameters (the duplicate-name
fixture). -/
def dupTool : Tool :=
  { name := "testTool", description := "Test tool", parameters := [],
    execute := fun _ => .ok .null }

/-- Claim C9, counterexample: `Agent.addTools` accepts a second tool of
an already-held name without any rejection - the internal list then
holds the name twice, which the registry's duplicate check would have
refused - and it leaves the client registry untouched, so it does not
delegate to the ToolRegistry. -/
theorem agent_addTools_accepts_duplicates :
    (Agent.listTools (Agent.addTools (Agent.addTools Agent.new [dupTool]) [dupTool])).map
      (fun t => t.name) = ["testTool", "testTool"]
    ∧ (Agent.addTools Agent.new [dupTool]).clientTools = [] :=
  ⟨rfl, rfl⟩

/-- Claim C9, amended: `Agent.addTools` appends to the agent-internal
tool array without consulting the registry or checking names, and
`Agent.listTools` returns that internal array; tools only reach the
registry's duplicate-name check when `execute` registers them. -/
theorem agent_addTools_appends_internally (a : AgentState) (ts : List Tool) :
    (Agent.addTools a ts).tools = a.tools ++ ts
    ∧ (Agent.addTools a ts).clientTools = a.clientTools
    ∧ Agent.listTools (Agent.addTools a ts) = a.tools ++ ts :=
  ⟨rfl, rfl, rfl⟩

/-- The first satisfying element is the head of the filtered list. -/
theorem find?_eq_head?_filter {α : Type} (p : α → Bool) (l : List α) :
    l.find? p = (l.filter p).head? := by
  induction l with
  | nil => rfl
  | cons a t ih =>
    cases h : p a with
    | true => rw [List.find?_cons_of_pos _ h, List.filter_cons_of_pos h]; rfl
    | false =>
      rw [List.find?_cons_of_neg _ (by simp [h]), List.filter_cons_of_neg (by simp [h]), ih]

/-- Claim C6, amended: with at least one required parameter absent,
both executeTool implementations return a failed result without ever
invoking the execute capability (the results below hold for every
capability `f`), but only `AIClient.executeTool` lists all missing
required names - `ToolManager.executeTool` returns on the first missing
parameter and names only it. -/
theorem executeTool_missing_params (t : Tool) (params : List (String × JSValue))
    (f : List (String × JSValue) → Except String JSValue)
    (hmiss : missingNames t params ≠ []) :
    AIClient.executeTool [{ t with execute := f }] t.name params
      = JSValue.obj [("success", .bool false),
          ("error", .str ("Missing required parameters: "
            ++ String.intercalate ", " (missingNames t params)))]
    ∧ ToolManager.executeTool [{ t with execute := f }] t.name params
      = JSValue.obj [("success", .bool false),
          ("error", .str ("Missing required parameter \x27"
            ++ (missingNames t params).headI
            ++ "\x27 for tool \x27" ++ t.name ++ "\x27"))] := by
  have hfind : List.find? (fun u => u.name == t.name) [{ t with execute := f }]
      = some { t with execute := f } := by
    simp [List.find?_cons]
  have hmiss2 : missingNames { t with execute := f } params = missingNames t params := rfl
  have hne : (missingNames t params).isEmpty = false := by
    cases h : missingNames t params with
    | nil => exact absurd h hmiss
    | cons a l => rfl
  constructor
  · unfold AIClient.executeTool
    rw [hfind]
    simp only [hmiss2, hne]
    simp
  · unfold ToolManager.executeTool
    rw [hfind]
    simp only [find?_eq_head?_filter]
    cases hF : List.filter (fun p => p.required && !(params.any (fun q => q.1 == p.name)))
        t.parameters with
    | nil =>
      exact absurd (show missingNames t params = [] by unfold missingNames; rw [hF]; rfl) hmiss
    | cons p0 rest =>
      have hhead : (missingNames t params).headI = p0.name := by
        unfold missingNames; rw [hF]; rfl
      rw [hhead]
      simp

/-- Claim C6 witness input: `toolAB` with the empty mapping leaves both
required names missing. -/
theorem executeTool_missing_params_witness :
    AIClient.executeTool [toolAB] "calc" []
      = JSValue.obj [("success", .bool false),
          ("error", .str "Missing required parameters: a, b")]
    ∧ ToolManager.executeTool [toolAB] "calc" []
      = JSValue.obj [("success", .bool false),
          ("error", .str "Missing required parameter \x27a\x27 for tool \x27calc\x27")] :=
  executeTool_missing_params toolAB [] (fun _ => .ok .null) (by decide)

/-- Registering tools with fresh pairwise-distinct names succeeds and
appends them in order. -/
theorem registerAll_ok (ts : List Tool) :
    ∀ acc : List Tool, (ts.map (fun u => u.name)).Nodup →
    (∀ t ∈ ts, ∀ u ∈ acc, ¬(u.name = t.name)) →
    registerAll acc ts = .ok (acc ++ ts) := by
  induction ts with
  | nil => intro acc _ _; simp [registerAll]
  | cons t ts ih =>
    intro acc hnd hdisj
    rw [List.map_cons, List.nodup_cons] at hnd
    obtain ⟨hnotin, hnd2⟩ := hnd
    have hanyf : (acc.any (fun u => u.name == t.name)) = false := by
      rw [List.any_eq_false]
      intro u hu
      simpa using hdisj t (by simp) u hu
    have hadd : ToolManager.addTool acc t = Except.ok (acc ++ [t]) := by
      unfold ToolManager.addTool
      simp [hanyf]
    rw [registerAll, hadd]
    show registerAll (acc ++ [t]) ts = Except.ok (acc ++ t :: ts)
    have hdisj2 : ∀ t2 ∈ ts, ∀ u ∈ acc ++ [t], ¬(u.name = t2.name) := by
      intro t2 ht2 u hu hEq
      rcases List.mem_append.1 hu with hu1 | hu2
      · exact hdisj t2 (by simp [ht2]) u hu1 hEq
      · have hut : u = t := by simpa using hu2
        subst hut
        exact hnotin (by
          rw [hEq]
          exact List.mem_map_of_mem (fun u => u.name) ht2)
    rw [ih (acc ++ [t]) hnd2 hdisj2]
    simp

/-- Claim C7: registry mutations are atomic and fail fast.  Adding `n`
tools with distinct names yields exactly those `n` tools, and `list()`
returns them; adding a tool whose name already exists throws (the
`Except.error`, raised before the insert, so the registry value is
untouched); removing an absent name throws; neither error becomes a
result value. -/
theorem registry_mutations_fail_fast (ts m : List Tool) (t : Tool) (nm : String)
    (hnd : (ts.map (fun u => u.name)).Nodup)
    (hdup : t.name ∈ m.map (fun u => u.name))
    (habs : nm ∉ m.map (fun u => u.name)) :
    registerAll [] ts = .ok ts
    ∧ ToolManager.listTools ts = ts
    ∧ ToolManager.addTool m t
      = .error ("Tool with name \x27" ++ t.name ++ "\x27 already exists")
    ∧ ToolManager.removeTool m nm = .error ("Tool \x27" ++ nm ++ "\x27 not found") := by
  refine ⟨?_, rfl, ?_, ?_⟩
  · simpa using registerAll_ok ts [] hnd (by simp)
  · have hcond : (m.any (fun u => u.name == t.name)) = true := by
      simp only [List.any_eq_true, beq_iff_eq]
      obtain ⟨u, hu, hn⟩ := List.mem_map.1 hdup
      exact ⟨u, hu, hn⟩
    unfold ToolManager.addTool
    rw [if_pos hcond]
  · have hcond : ¬((m.any (fun u => u.name == nm)) = true) := by
      simp only [List.any_eq_true, beq_iff_eq, not_exists, not_and]
      intro u hu hn
      exact habs (by
        rw [← hn]
        exact List.mem_map_of_mem (fun u => u.name) hu)
    unfold ToolManager.removeTool
    rw [if_neg hcond]

/-- Claim C7 witness input: two distinct registrations, then a
duplicate add and a remove of an absent name on a one-tool registry. -/
theorem registry_mutations_fail_fast_witness :
    registerAll [] [dupTool, toolAB] = .ok [dupTool, toolAB]
    ∧ ToolManager.listTools [dupTool, toolAB] = [dupTool, toolAB]
    ∧ ToolManager.addTool [dupTool] dupTool
      = .error "Tool with name \x27testTool\x27 already exists"
    ∧ ToolManager.removeTool [dupTool] "missing"
      = .error "Tool \x27missing\x27 not found" :=
  registry_mutations_fail_fast [dupTool, toolAB] [dupTool] dupTool "missing"
    (by decide) (by decide) (by decide)

/-- One loop step when generation succeeds, a schema is supplied, no
JSON candidate is found and attempts remain: recurse - with the prompt
unchanged. -/
theorem executeWithRetry_step_retry (gen : GenOracle) (ct : List Tool) (prompt : String)
    (s : Schema) (maxR attempt : Nat) (tr : List ToolCallResult) (ci : Nat)
    (r : AIResponse) (hr : gen ci prompt = Except.ok r)
    (hjm : jsonMatch r.text = none) (hlt : attempt < maxR) :
    executeWithRetry gen ct prompt (some s) maxR attempt tr ci =
      ((executeWithRetry gen ct prompt (some s) maxR (attempt + 1)
          (tr ++ runToolCalls ct r.toolCalls) (ci + 1)).1,
       prompt :: (executeWithRetry gen ct prompt (some s) maxR (attempt + 1)
          (tr ++ runToolCalls ct r.toolCalls) (ci + 1)).2) := by
  rw [executeWithRetry, hr]
  simp [hjm, hlt]

/-- One loop step when generation succeeds, a schema is supplied, no
JSON candidate is found and the budget is exhausted: resolve with the
terminal validation error. -/
theorem executeWithRetry_step_fail (gen : GenOracle) (ct : List Tool) (prompt : String)
    (s : Schema) (maxR attempt : Nat) (tr : List ToolCallResult) (ci : Nat)
    (r : AIResponse) (hr : gen ci prompt = Except.ok r)
    (hjm : jsonMatch r.text = none) (hge : ¬(attempt < maxR)) :
    executeWithRetry gen ct prompt (some s) maxR attempt tr ci =
      ({ response := r.text, parsedResponse := none, validationError := some noJsonError,
         toolCalls := tr ++ runToolCalls ct r.toolCalls }, [prompt]) := by
  rw [executeWithRetry, hr]
  simp [hjm, hge]

/-- Budget accounting under a generation capability that never yields a
JSON candidate: from `attempt ≤ maxR` the loop makes exactly
`maxR - attempt + 1` further generation calls and resolves with the
no-candidate validation error and no parsed value. -/
theorem executeWithRetry_no_json_aux (gen : GenOracle) (ct : List Tool) (prompt : String)
    (s : Schema)
    (hgen : ∀ i p, ∃ r, gen i p = Except.ok r ∧ jsonMatch r.text = none) :
    ∀ fuel attempt maxR tr ci, maxR - attempt = fuel → attempt ≤ maxR →
      ((executeWithRetry gen ct prompt (some s) maxR attempt tr ci).2.length
          = maxR - attempt + 1)
      ∧ ((executeWithRetry gen ct prompt (some s) maxR attempt tr ci).1.validationError
          = some noJsonError)
      ∧ ((executeWithRetry gen ct prompt (some s) maxR attempt tr ci).1.parsedResponse
          = none) := by
  intro fuel
  induction fuel with
  | zero =>
    intro attempt maxR tr ci hf hle
    obtain ⟨r, hr, hjm⟩ := hgen ci prompt
    have hge : ¬(attempt < maxR) := by omega
    rw [executeWithRetry_step_fail gen ct prompt s maxR attempt tr ci r hr hjm hge]
    refine ⟨?_, rfl, rfl⟩
    simp
    omega
  | succ n ih =>
    intro attempt maxR tr ci hf hle
    obtain ⟨r, hr, hjm⟩ := hgen ci prompt
    have hlt : attempt < maxR := by omega
    rw [executeWithRetry_step_retry gen ct prompt s maxR attempt tr ci r hr hjm hlt]
    obtain ⟨h1, h2, h3⟩ := ih (attempt + 1) maxR (tr ++ runToolCalls ct r.toolCalls) (ci + 1)
      (by omega) (by omega)
    refine ⟨?_, h2, h3⟩
    simp only [List.length_cons, h1]
    omega

/-- Claim C1: with a schema and budget `k ≥ 1`, a generation capability
that never yields a JSON-object candidate drives the loop through
exactly `k` generation calls (the trace length), after which it
resolves - every terminal branch returns an `ExecuteResult`, nothing is
thrown - with `validationError` set to the no-candidate message and
`parsedResponse` absent; and the constructor default for `maxRetries`
is 3, the budget counting the first attempt (`attempt` starts at 1 and
the loop stops retrying at `attempt = k`). -/
theorem schema_retry_budget (gen : GenOracle) (ct : List Tool) (prompt : String)
    (s : Schema) (k : Nat) (hk : 1 ≤ k)
    (hgen : ∀ i p, ∃ r, gen i p = Except.ok r ∧ jsonMatch r.text = none) :
    ((executeWithRetry gen ct prompt (some s) k 1 [] 0).2.length = k)
    ∧ ((executeWithRetry gen ct prompt (some s) k 1 [] 0).1.validationError
        = some noJsonError)
    ∧ ((executeWithRetry gen ct prompt (some s) k 1 [] 0).1.parsedResponse = none)
    ∧ Agent.mkMaxRetries none = 3 := by
  obtain ⟨h1, h2, h3⟩ := executeWithRetry_no_json_aux gen ct prompt s hgen (k - 1) 1 k [] 0
    (by omega) hk
  refine ⟨?_, h2, h3, rfl⟩
  rw [h1]
  omega

/-- A generation capability that always answers plain text with no
braces and no tool calls. -/
def genNoJson : GenOracle := fun _ _ => .ok { text := "no json here", toolCalls := [] }

/-- A schema that rejects every value. -/
def failSchema : Schema := fun _ => .error [{ path := [], message := "Invalid" }]

/-- Claim C1 witness input: budget 2 against the no-JSON capability. -/
theorem schema_retry_budget_witness :
    ((executeWithRetry genNoJson [] "P" (some failSchema) 2 1 [] 0).2.length = 2)
    ∧ ((executeWithRetry genNoJson [] "P" (some failSchema) 2 1 [] 0).1.validationError
        = some noJsonError)
    ∧ ((executeWithRetry genNoJson [] "P" (some failSchema) 2 1 [] 0).1.parsedResponse = none)
    ∧ Agent.mkMaxRetries none = 3 :=
  schema_retry_budget genNoJson [] "P" failSchema 2 (by decide)
    (fun _ _ => ⟨{ text := "no json here", toolCalls := [] }, rfl, rfl⟩)

/-- Every prompt entry of the generation trace equals the prompt the
loop was entered with, whatever the oracle, schema and budget. -/
theorem retry_prompt_all_eq (gen : GenOracle) (ct : List Tool) (prompt : String) :
    ∀ fuel schema maxR attempt tr ci, maxR - attempt = fuel →
      ((executeWithRetry gen ct prompt schema maxR attempt tr ci).2.all
        (fun q => q == prompt)) = true := by
  intro fuel
  induction fuel with
  | zero =>
    intro schema maxR attempt tr ci hf
    have hge : ¬(attempt < maxR) := by omega
    rw [executeWithRetry]
    cases hg : gen ci prompt with
    | error e => simp [hge]
    | ok r =>
      cases schema with
      | none => simp
      | some s =>
        cases hjm : jsonMatch r.text with
        | none => simp [hjm, hge]
        | some m =>
          cases hjp : jsonParse m with
          | none => simp [hjm, hjp, hge]
          | some j =>
            cases hv : s j with
            | ok d => simp [hjm, hjp, hv]
            | error issues => simp [hjm, hjp, hv, hge]
  | succ n ih =>
    intro schema maxR attempt tr ci hf
    have hlt : attempt < maxR := by omega
    rw [executeWithRetry]
    cases hg : gen ci prompt with
    | error e =>
      have hrec := ih schema maxR (attempt + 1) tr (ci + 1) (by omega)
      simp [hlt, hrec]
    | ok r =>
      cases schema with
      | none => simp
      | some s =>
        cases hjm : jsonMatch r.text with
        | none =>
          have hrec := ih (some s) maxR (attempt + 1)
            (tr ++ runToolCalls ct r.toolCalls) (ci + 1) (by omega)
          simp [hjm, hlt, hrec]
        | some m =>
          cases hjp : jsonParse m with
          | none =>
            have hrec := ih (some s) maxR (attempt + 1)
              (tr ++ runToolCalls ct r.toolCalls) (ci + 1) (by omega)
            simp [hjm, hjp, hlt, hrec]
          | some j =>
            cases hv : s j with
            | ok d => simp [hjm, hjp, hv]
            | error issues =>
              have hrec := ih (some s) maxR (attempt + 1)
                (tr ++ runToolCalls ct r.toolCalls) (ci + 1) (by omega)
              simp [hjm, hjp, hv, hlt, hrec]

/-- Claim C2: on a retry transition the next attempt should use the
previous prompt with the corrective reminder appended.  In the source
the `retryMessage` strings built on lines 148, 164, 192, 209 and 223 of
src/core/Agent.ts are never used: each recursive call passes the
original `prompt`, so every generation call of a run is made with the
identical prompt and corrective context never accumulates.  This
theorem evaluates the code on all runs: the whole generation trace
consists of the unchanged entry prompt. -/
theorem retry_prompt_never_augmented (gen : GenOracle) (ct : List Tool) (prompt : String)
    (schema : Option Schema) (maxR attempt : Nat) (tr : List ToolCallResult) (ci : Nat) :
    ((executeWithRetry gen ct prompt schema maxR attempt tr ci).2.all
      (fun q => q == prompt)) = true :=
  retry_prompt_all_eq gen ct prompt (maxR - attempt) schema maxR attempt tr ci rfl

/-- Claim C3: with a schema, the JSON candidate of a response is the
substring from the first opening brace to the last closing brace
(`jsonMatch`); when the first response's candidate parses and validates,
the loop terminates after exactly one generation call (trace `[prompt]`),
with `parsedResponse` the validated value and `response` the matched
JSON substring rather than the full raw text. -/
theorem first_attempt_validation_success (gen : GenOracle) (ct : List Tool) (prompt : String)
    (s : Schema) (k : Nat) (r : AIResponse) (matched : String) (j v : JSValue)
    (hr : gen 0 prompt = Except.ok r)
    (hm : jsonMatch r.text = some matched)
    (hp : jsonParse matched = some j)
    (hv : s j = Except.ok v) :
    executeWithRetry gen ct prompt (some s) k 1 [] 0 =
      ({ response := matched, parsedResponse := some v, validationError := none,
         toolCalls := runToolCalls ct r.toolCalls }, [prompt]) := by
  rw [executeWithRetry, hr]
  simp [hm, hp, hv]

/-- The response text of the validation-success scenario from the
spec's testable properties. -/
def johnText : String := "\x7b\x22name\x22:\x22John\x22,\x22age\x22:30\x7d"

/-- The parsed object of that scenario. -/
def johnVal : JSValue := .obj [("name", .str "John"), ("age", .num 30)]

/-- A generation capability answering the scenario text. -/
def genJohn : GenOracle := fun _ _ => .ok { text := johnText, toolCalls := [] }

/-- A schema requiring a string `name` field and a numeric `age`
field. -/
def schemaNameAge : Schema := fun j =>
  match jsGet j "name", jsGet j "age" with
  | .str _, .num _ => .ok j
  | _, _ => .error [{ path := ["name"], message := "Invalid input" }]

/-- Claim C3 witness input: the scenario capability against the
name/age schema validates on the first call. -/
theorem first_attempt_validation_success_witness :
    executeWithRetry genJohn [] "P" (some schemaNameAge) 3 1 [] 0 =
      ({ response := johnText, parsedResponse := some johnVal, validationError := none,
         toolCalls := [] }, ["P"]) :=
  first_attempt_validation_success genJohn [] "P" schemaNameAge 3
    { text := johnText, toolCalls := [] } johnText johnVal johnVal rfl rfl rfl rfl

/-- Claim C10: `Agent.execute` re-registers every agent-level and
call-level tool into the client registry on each invocation, so on an
Agent holding at least one tool a first `execute` succeeds (returning
an `ExecuteResult`) while a second call on the returned instance state
hits the registry duplicate-name check, which `execute` catches and
rethrows as an error whose message begins `Execution error:` - and it
does so for every generation capability, i.e. before any generation
call is made; `executeWithSchema` and `executeRaw` delegate to
`execute` and fail identically. -/
theorem second_execute_rejected (a : AgentState) (gen : GenOracle) (sysP prompt : String)
    (schema : Option Schema) (k : Nat) (callTools : List Tool)
    (t0 : Tool) (rest : List Tool)
    (htools : a.tools = t0 :: rest)
    (hfresh : a.clientTools = [])
    (hnd : ((a.tools ++ callTools).map (fun u => u.name)).Nodup) :
    ∃ res trace a2,
      Agent.execute a gen sysP prompt schema k callTools = Except.ok (res, trace, a2)
      ∧ (∀ (gen2 : GenOracle) (sysP2 prompt2 : String) (schema2 : Option Schema) (k2 : Nat),
          Agent.execute a2 gen2 sysP2 prompt2 schema2 k2 []
            = Except.error ("Execution error: "
                ++ ("Tool with name \x27" ++ t0.name ++ "\x27 already exists")))
      ∧ (∀ (gen2 : GenOracle) (sysP2 prompt2 : String) (s2 : Schema) (mR2 : Option Nat)
            (k2 : Nat),
          Agent.executeWithSchema a2 gen2 sysP2 prompt2 s2 mR2 k2 []
            = Except.error ("Execution error: "
                ++ ("Tool with name \x27" ++ t0.name ++ "\x27 already exists")))
      ∧ (∀ (gen2 : GenOracle) (sysP2 prompt2 : String) (k2 : Nat),
          Agent.executeRaw a2 gen2 sysP2 prompt2 k2 []
            = Except.error ("Execution error: "
                ++ ("Tool with name \x27" ++ t0.name ++ "\x27 already exists"))) := by
  have hreg : registerAll a.clientTools (a.tools ++ callTools)
      = Except.ok (a.tools ++ callTools) := by
    rw [hfresh]
    simpa using registerAll_ok (a.tools ++ callTools) [] hnd (by simp)
  have hdup2 : registerAll (a.tools ++ callTools) (a.tools ++ []) = Except.error
      ("Tool with name \x27" ++ t0.name ++ "\x27 already exists") := by
    rw [List.append_nil, htools]
    rw [registerAll]
    have hadd : ToolManager.addTool (t0 :: rest ++ callTools) t0
        = Except.error ("Tool with name \x27" ++ t0.name ++ "\x27 already exists") := by
      unfold ToolManager.addTool
      rw [if_pos (by simp)]
    rw [hadd]
  refine ⟨(executeWithRetry gen (a.tools ++ callTools)
      (sysP ++ "\n\nUser request: " ++ prompt) schema k 1 [] 0).1,
    (executeWithRetry gen (a.tools ++ callTools)
      (sysP ++ "\n\nUser request: " ++ prompt) schema k 1 [] 0).2,
    { a with clientTools := a.tools ++ callTools }, ?_, ?_, ?_, ?_⟩
  · unfold Agent.execute
    rw [hreg]
  · intro gen2 sysP2 prompt2 schema2 k2
    unfold Agent.execute
    rw [show ({ a with clientTools := a.tools ++ callTools } : AgentState).clientTools
        = a.tools ++ callTools from rfl]
    rw [show ({ a with clientTools := a.tools ++ callTools } : AgentState).tools
        = a.tools from rfl]
    rw [hdup2]
  · intro gen2 sysP2 prompt2 s2 mR2 k2
    unfold Agent.executeWithSchema
    unfold Agent.execute
    rw [show ({ a with clientTools := a.tools ++ callTools } : AgentState).clientTools
        = a.tools ++ callTools from rfl]
    rw [show ({ a with clientTools := a.tools ++ callTools } : AgentState).tools
        = a.tools from rfl]
    rw [hdup2]
  · intro gen2 sysP2 prompt2 k2
    unfold Agent.executeRaw
    unfold Agent.execute
    rw [show ({ a with clientTools := a.tools ++ callTools } : AgentState).clientTools
        = a.tools ++ callTools from rfl]
    rw [show ({ a with clientTools := a.tools ++ callTools } : AgentState).tools
        = a.tools from rfl]
    rw [hdup2]

/-- Claim C10 witness input: an Agent holding one tool, first execute
succeeding, second call rejected for every capability. -/
theorem second_execute_rejected_witness :
    ∃ res trace a2,
      Agent.execute { tools := [dupTool], clientTools := [] } genNoJson "S" "P" none 3 []
        = Except.ok (res, trace, a2)
      ∧ (∀ (gen2 : GenOracle) (sysP2 prompt2 : String) (schema2 : Option Schema) (k2 : Nat),
          Agent.execute a2 gen2 sysP2 prompt2 schema2 k2 []
            = Except.error ("Execution error: "
                ++ ("Tool with name \x27" ++ dupTool.name ++ "\x27 already exists")))
      ∧ (∀ (gen2 : GenOracle) (sysP2 prompt2 : String) (s2 : Schema) (mR2 : Option Nat)
            (k2 : Nat),
          Agent.executeWithSchema a2 gen2 sysP2 prompt2 s2 mR2 k2 []
            = Except.error ("Execution error: "
                ++ ("Tool with name \x27" ++ dupTool.name ++ "\x27 already exists")))
      ∧ (∀ (gen2 : GenOracle) (sysP2 prompt2 : String) (k2 : Nat),
          Agent.executeRaw a2 gen2 sysP2 prompt2 k2 []
            = Except.error ("Execution error: "
                ++ ("Tool with name \x27" ++ dupTool.name ++ "\x27 already exists"))) :=
  second_execute_rejected { tools := [dupTool], clientTools := [] } genNoJson "S" "P"
    none 3 [] dupTool [] rfl rfl (by decide)
